import Mathlib

/-!
Shallow embedding of the DLA simulator core (src/simulation.rs, src/settings.rs,
src/braille.rs). Rust `f32` values are modelled as exact rationals; the ambient
random generator is modelled as an explicit stream of draws; the transcendental
functions (`cos`, `sin`, `atan2`, `sqrt`, degree conversion and the constants
`PI`/`TAU`) are supplied by an oracle structure, so every theorem quantifies over
the numeric behaviour of those functions unless it instantiates them.
-/

namespace Dla

/-- Stream of random draws: `floats` models successive `gen::<f32>()` /
`gen_range(lo..hi)` float draws (taken raw), `ints` models integer-range draws.
An exhausted stream yields `0`. -/
structure Rng where
  floats : List ℚ
  ints : List ℤ
deriving DecidableEq

def nextFloat (r : Rng) : ℚ × Rng :=
  match r.floats with
  | [] => (0, r)
  | q :: rest => (q, { r with floats := rest })

def nextInt (r : Rng) : ℤ × Rng :=
  match r.ints with
  | [] => (0, r)
  | n :: rest => (n, { r with ints := rest })

/-- Oracle for the `f32` transcendental functions and constants used by the code. -/
structure NumOracle where
  cosQ : ℚ → ℚ
  sinQ : ℚ → ℚ
  atan2Q : ℚ → ℚ → ℚ
  sqrtQ : ℚ → ℚ
  toRad : ℚ → ℚ
  piQ : ℚ
  tauQ : ℚ

/-- Rust `f32::clamp(lo, hi)` for non-NaN inputs. -/
def clampQ (x lo hi : ℚ) : ℚ := min (max x lo) hi

/-- Rust `x as usize` on a non-negative-or-saturating float: truncation toward
zero, negative values saturate to `0`. -/
def ratToUsize (q : ℚ) : ℕ := if q < 0 then 0 else q.floor.toNat

/-- Rust `x as isize` / `x.round() as isize` support: truncation toward zero. -/
def ratTruncZ (q : ℚ) : ℤ := if q < 0 then q.ceil else q.floor

/-- `const BOUNDARY_MARGIN: f32 = 1.0` (simulation.rs). -/
def BOUNDARY_MARGIN : ℚ := 1

/-- `enum SeedPattern` (simulation.rs). -/
inductive SeedPattern where
  | Point | Line | Cross | Circle | Ring | Block
  | NoisePatch | Scatter | MultiPoint | Starburst
deriving DecidableEq

/-- `enum NeighborhoodType` (settings.rs). -/
inductive NeighborhoodType where
  | VonNeumann | Moore | Extended
deriving DecidableEq

/-- `NeighborhoodType::offsets` (settings.rs). -/
def NeighborhoodType.offsets : NeighborhoodType → List (ℤ × ℤ)
  | .VonNeumann => [(-1, 0), (1, 0), (0, -1), (0, 1)]
  | .Moore =>
      [(-1, -1), (0, -1), (1, -1),
       (-1, 0), (1, 0),
       (-1, 1), (0, 1), (1, 1)]
  | .Extended =>
      [(-2, -2), (-1, -2), (0, -2), (1, -2), (2, -2),
       (-2, -1), (-1, -1), (0, -1), (1, -1), (2, -1),
       (-2, 0), (-1, 0), (1, 0), (2, 0),
       (-2, 1), (-1, 1), (0, 1), (1, 1), (2, 1),
       (-2, 2), (-1, 2), (0, 2), (1, 2), (2, 2)]

/-- `enum SpawnMode` (settings.rs). -/
inductive SpawnMode where
  | Circle | Edges | Corners | Random | Top | Bottom | Left | Right
deriving DecidableEq

/-- `enum BoundaryBehavior` (settings.rs). -/
inductive BoundaryBehavior where
  | Clamp | Wrap | Bounce | Stick | Absorb
deriving DecidableEq

/-- `enum ColorMode` (settings.rs). -/
inductive ColorMode where
  | Age | Distance | Density | Direction
deriving DecidableEq

/-- `struct SimulationSettings` (settings.rs), every field of the source struct. -/
structure SimulationSettings where
  walk_step_size : ℚ
  walk_bias_angle : ℚ
  walk_bias_strength : ℚ
  radial_bias : ℚ
  adaptive_step : Bool
  adaptive_step_factor : ℚ
  lattice_walk : Bool
  neighborhood : NeighborhoodType
  multi_contact_min : ℕ
  tip_stickiness : ℚ
  side_stickiness : ℚ
  stickiness_gradient : ℚ
  spawn_mode : SpawnMode
  boundary_behavior : BoundaryBehavior
  spawn_radius_offset : ℚ
  escape_multiplier : ℚ
  min_spawn_radius : ℚ
  max_walk_iterations : ℕ
  color_mode : ColorMode
  highlight_recent : ℕ
  invert_colors : Bool
deriving DecidableEq

/-- `impl Default for SimulationSettings` (settings.rs). -/
def defaultSettings : SimulationSettings where
  walk_step_size := 1
  walk_bias_angle := 0
  walk_bias_strength := 0
  radial_bias := 0
  adaptive_step := false
  adaptive_step_factor := 3
  lattice_walk := true
  neighborhood := .VonNeumann
  multi_contact_min := 1
  tip_stickiness := 1
  side_stickiness := 1
  stickiness_gradient := 0
  spawn_mode := .Circle
  boundary_behavior := .Absorb
  spawn_radius_offset := 10
  escape_multiplier := 3
  min_spawn_radius := 15
  max_walk_iterations := 10000
  color_mode := .Age
  highlight_recent := 0
  invert_colors := false

/-- The `max_neighbors` table inside `effective_stickiness` (settings.rs). -/
def maxNeighbors : NeighborhoodType → ℕ
  | .VonNeumann => 4
  | .Moore => 8
  | .Extended => 24

/-- Body of `SimulationSettings::effective_stickiness` (settings.rs), with the
fields it reads passed explicitly. -/
def effStick (nb : NeighborhoodType) (tip side grad : ℚ) (n : ℕ) (dist base : ℚ) : ℚ :=
  let neighborRatioQ : ℚ := (n : ℚ) / (maxNeighbors nb : ℚ)
  let directional := tip * (1 - neighborRatioQ) + side * neighborRatioQ
  let gradientFactor := 1 + (dist / 100) * grad
  clampQ (base * directional * gradientFactor) 0 1

/-- `SimulationSettings::effective_stickiness` (settings.rs). -/
def SimulationSettings.effective_stickiness (st : SimulationSettings)
    (neighbor_count : ℕ) (distance_from_center base_stickiness : ℚ) : ℚ :=
  effStick st.neighborhood st.tip_stickiness st.side_stickiness st.stickiness_gradient
    neighbor_count distance_from_center base_stickiness

/-- `struct ParticleData` (simulation.rs). -/
structure ParticleData where
  age : ℕ
  distance : ℚ
  direction : ℚ
  neighbor_count : ℕ
deriving DecidableEq

/-- The grid buffer: `Vec<Option<ParticleData>>`. -/
abbrev Grid := List (Option ParticleData)

/-- Number of `Occupied` cells of a grid. -/
def countOccupied (g : Grid) : ℕ := g.countP (fun c => c.isSome)

/-- `struct DlaSimulation` (simulation.rs), minus the thread-local rng which is
threaded explicitly. -/
structure DlaSimulation where
  grid_width : ℕ
  grid_height : ℕ
  grid : Grid
  num_particles : ℕ
  stickiness : ℚ
  particles_stuck : ℕ
  max_radius : ℚ
  paused : Bool
  seed_pattern : SeedPattern
  settings : SimulationSettings
deriving DecidableEq

/-- `DlaSimulation::count_neighbors` (simulation.rs). -/
def count_neighbors (nb : NeighborhoodType) (g : Grid) (w h ix iy : ℕ) : ℕ × Bool :=
  nb.offsets.foldl
    (fun acc off =>
      let nx : ℤ := (ix : ℤ) + off.1
      let ny : ℤ := (iy : ℤ) + off.2
      if 0 ≤ nx ∧ nx < (w : ℤ) ∧ 0 ≤ ny ∧ ny < (h : ℤ) then
        if (g.getD (ny.toNat * w + nx.toNat) none).isSome then (acc.1 + 1, true) else acc
      else acc)
    (0, false)

/-- `DlaSimulation::apply_walk_bias` (simulation.rs), with the settings fields it
reads passed explicitly. -/
def apply_walk_bias (O : NumOracle) (biasStrength biasAngleDeg radialBiasQ : ℚ)
    (baseAngle x y cx cy : ℚ) : ℚ :=
  let angle0 := baseAngle
  let angle1 :=
    if 0 < biasStrength then
      angle0 + biasStrength * O.sinQ (O.toRad biasAngleDeg - baseAngle)
    else angle0
  if 1 / 1000 < |radialBiasQ| then
    let dx := x - cx
    let dy := y - cy
    let radialAngle := O.atan2Q dy dx
    let targetAngle := if 0 < radialBiasQ then radialAngle + O.piQ else radialAngle
    angle1 + |radialBiasQ| * O.sinQ (targetAngle - angle1)
  else angle1

/-- `DlaSimulation::apply_boundary` (simulation.rs). -/
def apply_boundary (b : BoundaryBehavior) (x y xmax ymax : ℚ) : ℚ × ℚ :=
  match b with
  | .Clamp => (clampQ x BOUNDARY_MARGIN xmax, clampQ y BOUNDARY_MARGIN ymax)
  | .Wrap =>
      let width := xmax - BOUNDARY_MARGIN
      let height := ymax - BOUNDARY_MARGIN
      let x1 := if x < BOUNDARY_MARGIN then x + width else if xmax < x then x - width else x
      let y1 := if y < BOUNDARY_MARGIN then y + height else if ymax < y then y - height else y
      (x1, y1)
  | .Bounce =>
      let x1 :=
        if x < BOUNDARY_MARGIN then BOUNDARY_MARGIN + (BOUNDARY_MARGIN - x)
        else if xmax < x then xmax - (x - xmax) else x
      let y1 :=
        if y < BOUNDARY_MARGIN then BOUNDARY_MARGIN + (BOUNDARY_MARGIN - y)
        else if ymax < y then ymax - (y - ymax) else y
      (x1, y1)
  | .Stick | .Absorb => (clampQ x BOUNDARY_MARGIN xmax, clampQ y BOUNDARY_MARGIN ymax)

/-- The settings fields that `DlaSimulation::step` actually reads (everything
except `adaptive_step`, `adaptive_step_factor`, `lattice_walk` and the visual
fields). -/
structure WalkParams where
  walk_step_size : ℚ
  walk_bias_angle : ℚ
  walk_bias_strength : ℚ
  radial_bias : ℚ
  neighborhood : NeighborhoodType
  multi_contact_min : ℕ
  tip_stickiness : ℚ
  side_stickiness : ℚ
  stickiness_gradient : ℚ
  spawn_mode : SpawnMode
  boundary_behavior : BoundaryBehavior
  spawn_radius_offset : ℚ
  escape_multiplier : ℚ
  min_spawn_radius : ℚ
  max_walk_iterations : ℕ

def mkWalkParams (st : SimulationSettings) : WalkParams where
  walk_step_size := st.walk_step_size
  walk_bias_angle := st.walk_bias_angle
  walk_bias_strength := st.walk_bias_strength
  radial_bias := st.radial_bias
  neighborhood := st.neighborhood
  multi_contact_min := st.multi_contact_min
  tip_stickiness := st.tip_stickiness
  side_stickiness := st.side_stickiness
  stickiness_gradient := st.stickiness_gradient
  spawn_mode := st.spawn_mode
  boundary_behavior := st.boundary_behavior
  spawn_radius_offset := st.spawn_radius_offset
  escape_multiplier := st.escape_multiplier
  min_spawn_radius := st.min_spawn_radius
  max_walk_iterations := st.max_walk_iterations

/-- How one invocation of the walk loop in `step` ended. -/
inductive WalkExit where
  | escaped | stuck | absorbed | timeout
deriving DecidableEq

structure WalkResult where
  grid : Grid
  pstuck : ℕ
  maxr : ℚ
  rng : Rng
  tag : WalkExit

/-- The `for _ in 0..max_iterations` random-walk loop of `DlaSimulation::step`
(simulation.rs lines 159-241), with the iteration budget as fuel. -/
def walkLoop (O : NumOracle) (p : WalkParams) (w h : ℕ) (g : Grid) (pstuck : ℕ)
    (maxr stick cx cy escSq xmax ymax : ℚ) :
    ℕ → ℚ → ℚ → ℚ → ℚ → Rng → WalkResult
  | 0, _x, _y, _ldx, _ldy, rng => ⟨g, pstuck, maxr, rng, .timeout⟩
  | fuel + 1, x, y, lastDx, lastDy, rng =>
    let dx := x - cx
    let dy := y - cy
    let distSq := dx * dx + dy * dy
    if escSq < distSq then ⟨g, pstuck, maxr, rng, .escaped⟩
    else
      let ix := ratToUsize x
      let iy := ratToUsize y
      let move : Rng → WalkResult := fun rng2 =>
        let ldx := x - cx
        let ldy := y - cy
        let baseAngle := (nextFloat rng2).1
        let rng3 := (nextFloat rng2).2
        let ang := apply_walk_bias O p.walk_bias_strength p.walk_bias_angle p.radial_bias
          baseAngle x y cx cy
        let x2 := x + p.walk_step_size * O.cosQ ang
        let y2 := y + p.walk_step_size * O.sinQ ang
        let xy := apply_boundary p.boundary_behavior x2 y2 xmax ymax
        if p.boundary_behavior = .Absorb ∧
            (xy.1 ≤ BOUNDARY_MARGIN ∨ xmax ≤ xy.1 ∨ xy.2 ≤ BOUNDARY_MARGIN ∨ ymax ≤ xy.2) then
          ⟨g, pstuck, maxr, rng3, .absorbed⟩
        else
          walkLoop O p w h g pstuck maxr stick cx cy escSq xmax ymax fuel xy.1 xy.2 ldx ldy rng3
      if 0 < ix ∧ ix < w - 1 ∧ 0 < iy ∧ iy < h - 1 then
        let nc := count_neighbors p.neighborhood g w h ix iy
        if nc.2 = true ∧ p.multi_contact_min ≤ nc.1 then
          let dist := O.sqrtQ distSq
          let eff := effStick p.neighborhood p.tip_stickiness p.side_stickiness
            p.stickiness_gradient nc.1 dist stick
          let u := (nextFloat rng).1
          let rng1 := (nextFloat rng).2
          if u < eff then
            let idx := iy * w + ix
            if (g.getD idx none).isNone = true then
              ⟨g.set idx (some ⟨pstuck, dist, O.atan2Q lastDy lastDx, nc.1⟩),
                pstuck + 1, max maxr dist, rng1, .stuck⟩
            else move rng1
          else move rng1
        else move rng
      else move rng

/-- The `loop` in `SpawnMode::Random` (simulation.rs), with fuel bounded by the
length of the remaining draw stream (the Rust loop draws until its rejection test
passes; an exhausted modelled stream returns the margin corner). -/
def spawnRandomLoop (cx cy spawnRadius : ℚ) : ℕ → Rng → (ℚ × ℚ) × Rng
  | 0, rng => ((1, 1), rng)
  | fuel + 1, rng =>
    let x := (nextFloat rng).1
    let r1 := (nextFloat rng).2
    let y := (nextFloat r1).1
    let r2 := (nextFloat r1).2
    let dx := x - cx
    let dy := y - cy
    if spawnRadius * spawnRadius * (1 / 2) < dx * dx + dy * dy then ((x, y), r2)
    else spawnRandomLoop cx cy spawnRadius fuel r2

/-- `DlaSimulation::spawn_particle` (simulation.rs). -/
def spawn_particle (O : NumOracle) (mode : SpawnMode) (w h : ℕ)
    (cx cy spawnRadius : ℚ) (rng : Rng) : (ℚ × ℚ) × Rng :=
  let wq : ℚ := (w : ℚ)
  let hq : ℚ := (h : ℚ)
  match mode with
  | .Circle =>
      let ang := (nextFloat rng).1
      let rng1 := (nextFloat rng).2
      ((clampQ (cx + spawnRadius * O.cosQ ang) 1 (wq - 2),
        clampQ (cy + spawnRadius * O.sinQ ang) 1 (hq - 2)), rng1)
  | .Edges =>
      let k := (nextInt rng).1
      let r1 := (nextInt rng).2
      let t := (nextFloat r1).1
      let r2 := (nextFloat r1).2
      match k with
      | 0 => ((t, 1), r2)
      | 1 => ((t, hq - 2), r2)
      | 2 => ((1, t), r2)
      | _ => ((wq - 2, t), r2)
  | .Corners =>
      let k := (nextInt rng).1
      let r1 := (nextInt rng).2
      match k with
      | 0 => ((1, 1), r1)
      | 1 => ((wq - 2, 1), r1)
      | 2 => ((1, hq - 2), r1)
      | _ => ((wq - 2, hq - 2), r1)
  | .Random => spawnRandomLoop cx cy spawnRadius (rng.floats.length + 1) rng
  | .Top =>
      let t := (nextFloat rng).1
      ((t, 1), (nextFloat rng).2)
  | .Bottom =>
      let t := (nextFloat rng).1
      ((t, hq - 2), (nextFloat rng).2)
  | .Left =>
      let t := (nextFloat rng).1
      ((1, t), (nextFloat rng).2)
  | .Right =>
      let t := (nextFloat rng).1
      ((wq - 2, t), (nextFloat rng).2)

/-- The non-idle path of `DlaSimulation::step` (simulation.rs lines 132-241):
spawn one particle and run the walk loop. -/
def stepGo (O : NumOracle) (sim : DlaSimulation) (rng : Rng) : WalkResult :=
  let cx := (sim.grid_width : ℚ) / 2
  let cy := (sim.grid_height : ℚ) / 2
  let p := mkWalkParams sim.settings
  let spawnRadius := max (sim.max_radius + p.spawn_radius_offset) p.min_spawn_radius
  let escSq := spawnRadius * spawnRadius * p.escape_multiplier * p.escape_multiplier
  let xmax := (sim.grid_width : ℚ) - BOUNDARY_MARGIN - 1
  let ymax := (sim.grid_height : ℚ) - BOUNDARY_MARGIN - 1
  let sp := spawn_particle O p.spawn_mode sim.grid_width sim.grid_height cx cy spawnRadius rng
  let x0 := sp.1.1
  let y0 := sp.1.2
  walkLoop O p sim.grid_width sim.grid_height sim.grid sim.particles_stuck sim.max_radius
    sim.stickiness cx cy escSq xmax ymax p.max_walk_iterations x0 y0 (x0 - cx) (y0 - cy) sp.2

/-- Result of `DlaSimulation::step`: the updated simulation, the returned `bool`,
the consumed rng, and (for specification purposes) how the walk ended; `none`
when the idle early-return fired. -/
structure StepResult where
  sim : DlaSimulation
  cont : Bool
  rng : Rng
  exitTag : Option WalkExit

/-- `DlaSimulation::step` (simulation.rs lines 127-241). -/
def stepCore (O : NumOracle) (sim : DlaSimulation) (rng : Rng) : StepResult :=
  if sim.paused = true ∨ sim.num_particles ≤ sim.particles_stuck then
    ⟨sim, false, rng, none⟩
  else
    let r := stepGo O sim rng
    ⟨{ sim with grid := r.grid, particles_stuck := r.pstuck, max_radius := r.maxr },
      true, r.rng, some r.tag⟩

/-- `DlaSimulation::get_particle` (simulation.rs). -/
def get_particle (sim : DlaSimulation) (x y : ℕ) : Option ParticleData :=
  if x < sim.grid_width ∧ y < sim.grid_height then
    sim.grid.getD (y * sim.grid_width + x) none
  else none

/-- `DlaSimulation::progress` (simulation.rs). -/
def progress (sim : DlaSimulation) : ℚ :=
  (sim.particles_stuck : ℚ) / (sim.num_particles : ℚ)

/-- `DlaSimulation::is_complete` (simulation.rs). -/
def is_complete (sim : DlaSimulation) : Bool :=
  decide (sim.num_particles ≤ sim.particles_stuck)

/-- Rust `i32::clamp`. -/
def clampZ (x lo hi : ℤ) : ℤ := min (max x lo) hi

/-- Rust `f32::round` (half away from zero) followed by an integer cast. -/
def ratRound (q : ℚ) : ℤ := if q < 0 then -((-q + 1 / 2).floor) else (q + 1 / 2).floor

/-- Rust inclusive integer range `lo..=hi` as a list (empty when `hi < lo`). -/
def intRangeIncl (lo hi : ℤ) : List ℤ :=
  if lo ≤ hi then (List.range ((hi - lo).toNat + 1)).map (fun k => lo + (k : ℤ)) else []

/-- `DlaSimulation::seed_particle` (simulation.rs). -/
def seed_particle : ParticleData := ⟨0, 0, 0, 0⟩

/-- `DlaSimulation::seed_point` (simulation.rs). -/
def seed_point (_O : NumOracle) (sim : DlaSimulation) (rng : Rng) : DlaSimulation × Rng :=
  let centerIdx := sim.grid_height / 2 * sim.grid_width + sim.grid_width / 2
  ({ sim with
      grid := sim.grid.set centerIdx (some seed_particle)
      particles_stuck := 1
      max_radius := 1 }, rng)

/-- `DlaSimulation::seed_line` (simulation.rs). -/
def seed_line (_O : NumOracle) (sim : DlaSimulation) (rng : Rng) : DlaSimulation × Rng :=
  let w := sim.grid_width
  let cy := sim.grid_height / 2
  let halfLen := min 20 (w / 4)
  let startX := w / 2 - halfLen
  let endX := w / 2 + halfLen
  let g := (List.range (endX - startX)).foldl
    (fun g i => g.set (cy * w + (startX + i)) (some seed_particle)) sim.grid
  ({ sim with
      grid := g
      particles_stuck := endX - startX
      max_radius := (halfLen : ℚ) }, rng)

/-- `DlaSimulation::seed_cross` (simulation.rs): four arms written per index
`i in 0..arm_len`, incrementing the placement counter by 4 each time the guard
`cx >= i && cy >= i` holds. -/
def seed_cross (_O : NumOracle) (sim : DlaSimulation) (rng : Rng) : DlaSimulation × Rng :=
  let w := sim.grid_width
  let cx := sim.grid_width / 2
  let cy := sim.grid_height / 2
  let armLen := min 10 (min (sim.grid_width / 8) (sim.grid_height / 8))
  let gc := (List.range armLen).foldl
    (fun (acc : Grid × ℕ) i =>
      if i ≤ cx ∧ i ≤ cy then
        (((((acc.1.set (cy * w + (cx - i)) (some seed_particle)).set
            (cy * w + (cx + i)) (some seed_particle)).set
            ((cy - i) * w + cx) (some seed_particle)).set
            ((cy + i) * w + cx) (some seed_particle)), acc.2 + 4)
      else acc)
    (sim.grid, 0)
  ({ sim with grid := gc.1, particles_stuck := gc.2, max_radius := (armLen : ℚ) }, rng)

/-- `DlaSimulation::seed_circle` (simulation.rs). -/
def seed_circle (O : NumOracle) (sim : DlaSimulation) (rng : Rng) : DlaSimulation × Rng :=
  let w := sim.grid_width
  let h := sim.grid_height
  let cx := (w : ℚ) / 2
  let cy := (h : ℚ) / 2
  let radius : ℚ := min (min 15 ((w / 8 : ℕ) : ℚ)) ((h / 8 : ℕ) : ℚ)
  let gc := (List.range 360).foldl
    (fun (acc : Grid × ℕ) (angleDeg : ℕ) =>
      let angle := O.toRad (angleDeg : ℚ)
      let x := ratToUsize (cx + radius * O.cosQ angle)
      let y := ratToUsize (cy + radius * O.sinQ angle)
      if x < w ∧ y < h then
        let idx := y * w + x
        if (acc.1.getD idx none).isNone = true then
          (acc.1.set idx (some seed_particle), acc.2 + 1)
        else acc
      else acc)
    (sim.grid, 0)
  ({ sim with grid := gc.1, particles_stuck := gc.2, max_radius := radius }, rng)

/-- `DlaSimulation::seed_ring` (simulation.rs). -/
def seed_ring (O : NumOracle) (sim : DlaSimulation) (rng : Rng) : DlaSimulation × Rng :=
  let w := sim.grid_width
  let h := sim.grid_height
  let cx := (w : ℚ) / 2
  let cy := (h : ℚ) / 2
  let minDim : ℚ := ((min w h : ℕ) : ℚ)
  let radius := clampQ (minDim * (30 / 100)) 6 (minDim * (45 / 100))
  let thickness : ℚ := 5 / 2
  let gc := (List.range h).foldl
    (fun (accY : Grid × ℕ) (y : ℕ) =>
      (List.range w).foldl
        (fun (acc : Grid × ℕ) (x : ℕ) =>
          let dx := (x : ℚ) - cx
          let dy := (y : ℚ) - cy
          let dist := O.sqrtQ (dx * dx + dy * dy)
          if radius - thickness ≤ dist ∧ dist ≤ radius + thickness then
            let idx := y * w + x
            if (acc.1.getD idx none).isNone = true then
              (acc.1.set idx (some seed_particle), acc.2 + 1)
            else acc
          else acc)
        accY)
    (sim.grid, 0)
  ({ sim with grid := gc.1, particles_stuck := gc.2, max_radius := radius + thickness }, rng)

/-- `DlaSimulation::seed_block` (simulation.rs). -/
def seed_block (_O : NumOracle) (sim : DlaSimulation) (rng : Rng) : DlaSimulation × Rng :=
  let w := sim.grid_width
  let h := sim.grid_height
  let cx := w / 2
  let cy := h / 2
  let halfSize := max (min w h / 8) 4
  let startX := cx - halfSize
  let endX := min (cx + halfSize) (w - 1)
  let startY := cy - halfSize
  let endY := min (cy + halfSize) (h - 1)
  let gc := ((List.range (endY + 1 - startY)).map (· + startY)).foldl
    (fun (accY : Grid × ℕ) y =>
      ((List.range (endX + 1 - startX)).map (· + startX)).foldl
        (fun (acc : Grid × ℕ) x =>
          let idx := y * w + x
          if (acc.1.getD idx none).isNone = true then
            (acc.1.set idx (some seed_particle), acc.2 + 1)
          else acc)
        accY)
    (sim.grid, 0)
  ({ sim with
      grid := gc.1
      particles_stuck := gc.2
      max_radius := (halfSize : ℚ) * (1414 / 1000) }, rng)

/-- `DlaSimulation::seed_noise_patch` (simulation.rs). -/
def seed_noise_patch (O : NumOracle) (sim : DlaSimulation) (rng : Rng) : DlaSimulation × Rng :=
  let w := sim.grid_width
  let h := sim.grid_height
  let gridCx := (w : ℚ) / 2
  let gridCy := (h : ℚ) / 2
  let minDim : ℚ := ((min w h : ℕ) : ℚ)
  let radius := clampQ (minDim * (22 / 100)) 6 30
  let radiusI : ℤ := ratTruncZ radius
  let _jitter : ℤ := max (radiusI / 3) 1
  let d1 := (nextInt rng).1
  let rngA := (nextInt rng).2
  let d2 := (nextInt rngA).1
  let rngB := (nextInt rngA).2
  let patchCx := clampZ ((w : ℤ) / 3 + d1) 1 ((w : ℤ) - 2)
  let patchCy := clampZ ((h : ℤ) / 3 + d2) 1 ((h : ℤ) - 2)
  let st := (intRangeIncl (max (patchCy - radiusI) 1) (min (patchCy + radiusI) ((h : ℤ) - 2))).foldl
    (fun (accY : Grid × ℕ × ℚ × Rng) (y : ℤ) =>
      (intRangeIncl (max (patchCx - radiusI) 1) (min (patchCx + radiusI) ((w : ℤ) - 2))).foldl
        (fun (acc : Grid × ℕ × ℚ × Rng) (x : ℤ) =>
          let dx := x - patchCx
          let dy := y - patchCy
          let dist := O.sqrtQ (((dx * dx + dy * dy : ℤ) : ℚ))
          if dist ≤ radius then
            let falloff := 1 - dist / radius
            let stickProb := 35 / 100 + falloff * (65 / 100)
            let u := (nextFloat acc.2.2.2).1
            let rngNext := (nextFloat acc.2.2.2).2
            if u < stickProb then
              let idx := y.toNat * w + x.toNat
              if (acc.1.getD idx none).isNone = true then
                let gdx := (x : ℚ) - gridCx
                let gdy := (y : ℚ) - gridCy
                let gdist := O.sqrtQ (gdx * gdx + gdy * gdy)
                (acc.1.set idx (some seed_particle), acc.2.1 + 1,
                  max acc.2.2.1 gdist, rngNext)
              else (acc.1, acc.2.1, acc.2.2.1, rngNext)
            else (acc.1, acc.2.1, acc.2.2.1, rngNext)
          else acc)
        accY)
    (sim.grid, 0, 1, rngB)
  let final :=
    if st.2.1 = 0 then
      let idx := patchCy.toNat * w + patchCx.toNat
      let gdx := (patchCx : ℚ) - gridCx
      let gdy := (patchCy : ℚ) - gridCy
      (st.1.set idx (some seed_particle), 1, O.sqrtQ (gdx * gdx + gdy * gdy))
    else (st.1, st.2.1, st.2.2.1)
  ({ sim with
      grid := final.1
      particles_stuck := final.2.1
      max_radius := final.2.2 }, st.2.2.2)

/-- `DlaSimulation::seed_scatter` (simulation.rs). -/
def seed_scatter (O : NumOracle) (sim : DlaSimulation) (rng : Rng) : DlaSimulation × Rng :=
  let w := sim.grid_width
  let h := sim.grid_height
  let cx := w / 2
  let cy := h / 2
  let scatterRadius := min 20 (min (w / 6) (h / 6))
  let st := (List.range 15).foldl
    (fun (acc : Grid × ℕ × Rng) _ =>
      let ang := (nextFloat acc.2.2).1
      let rngA := (nextFloat acc.2.2).2
      let r := (nextFloat rngA).1
      let rngB := (nextFloat rngA).2
      let x := ratToUsize ((cx : ℚ) + r * O.cosQ ang)
      let y := ratToUsize ((cy : ℚ) + r * O.sinQ ang)
      if x < w ∧ y < h then
        let idx := y * w + x
        if (acc.1.getD idx none).isNone = true then
          (acc.1.set idx (some seed_particle), acc.2.1 + 1, rngB)
        else (acc.1, acc.2.1, rngB)
      else (acc.1, acc.2.1, rngB))
    (sim.grid, 0, rng)
  ({ sim with
      grid := st.1
      particles_stuck := st.2.1
      max_radius := (scatterRadius : ℚ) }, st.2.2)

/-- `DlaSimulation::seed_multi_point` (simulation.rs). -/
def seed_multi_point (_O : NumOracle) (sim : DlaSimulation) (rng : Rng) : DlaSimulation × Rng :=
  let w := sim.grid_width
  let h := sim.grid_height
  let cx := w / 2
  let cy := h / 2
  let spread := min 25 (min (w / 5) (h / 5))
  let points : List (ℕ × ℕ) :=
    [(cx, cy), (cx - spread, cy), (cx + spread, cy), (cx, cy - spread), (cx, cy + spread)]
  let gc := points.foldl
    (fun (acc : Grid × ℕ) pt =>
      if pt.1 < w ∧ pt.2 < h then
        let idx := pt.2 * w + pt.1
        if (acc.1.getD idx none).isNone = true then
          (acc.1.set idx (some seed_particle), acc.2 + 1)
        else acc
      else acc)
    (sim.grid, 0)
  ({ sim with grid := gc.1, particles_stuck := gc.2, max_radius := (spread : ℚ) }, rng)

/-- `DlaSimulation::seed_starburst` (simulation.rs). -/
def seed_starburst (O : NumOracle) (sim : DlaSimulation) (rng : Rng) : DlaSimulation × Rng :=
  let w := sim.grid_width
  let h := sim.grid_height
  let cx := (w : ℚ) / 2
  let cy := (h : ℚ) / 2
  let minDim : ℚ := ((min w h : ℕ) : ℚ)
  let spokeLen := clampQ (minDim * (35 / 100)) 8 40
  let hubX := ratToUsize cx
  let hubY := ratToUsize cy
  let hubIdx := hubY * w + hubX
  let gc0 : Grid × ℕ :=
    if (sim.grid.getD hubIdx none).isNone = true then
      (sim.grid.set hubIdx (some seed_particle), 1)
    else (sim.grid, 0)
  let gc1 := (List.range 8).foldl
    (fun (accS : Grid × ℕ) (s : ℕ) =>
      let angle := (s : ℚ) * (O.tauQ / 8)
      ((List.range (ratToUsize spokeLen)).map (· + 1)).foldl
        (fun (acc : Grid × ℕ) (stp : ℕ) =>
          let fx := cx + (stp : ℚ) * O.cosQ angle
          let fy := cy + (stp : ℚ) * O.sinQ angle
          let x := ratRound fx
          let y := ratRound fy
          if 0 < x ∧ x < (w : ℤ) - 1 ∧ 0 < y ∧ y < (h : ℤ) - 1 then
            let idx := y.toNat * w + x.toNat
            if (acc.1.getD idx none).isNone = true then
              (acc.1.set idx (some seed_particle), acc.2 + 1)
            else acc
          else acc)
        accS)
    gc0
  let rimRadius := spokeLen
  let gc2 := ((List.range 90).map (· * 4)).foldl
    (fun (acc : Grid × ℕ) (angleDeg : ℕ) =>
      let angle := O.toRad (angleDeg : ℚ)
      let x := ratTruncZ (cx + rimRadius * O.cosQ angle)
      let y := ratTruncZ (cy + rimRadius * O.sinQ angle)
      if 0 < x ∧ x < (w : ℤ) - 1 ∧ 0 < y ∧ y < (h : ℤ) - 1 then
        let idx := y.toNat * w + x.toNat
        if (acc.1.getD idx none).isNone = true then
          (acc.1.set idx (some seed_particle), acc.2 + 1)
        else acc
      else acc)
    gc1
  ({ sim with grid := gc2.1, particles_stuck := gc2.2, max_radius := rimRadius }, rng)

/-- `DlaSimulation::reset_with_seed` (simulation.rs lines 393-418). -/
def reset_with_seed (O : NumOracle) (sim : DlaSimulation) (pattern : SeedPattern)
    (rng : Rng) : DlaSimulation × Rng :=
  let required := sim.grid_width * sim.grid_height
  let g : Grid :=
    if sim.grid.length ≠ required then List.replicate required none
    else sim.grid.map (fun _ => none)
  let sim1 := { sim with grid := g, seed_pattern := pattern }
  let seeded :=
    match pattern with
    | .Point => seed_point O sim1 rng
    | .Line => seed_line O sim1 rng
    | .Cross => seed_cross O sim1 rng
    | .Circle => seed_circle O sim1 rng
    | .Ring => seed_ring O sim1 rng
    | .Block => seed_block O sim1 rng
    | .NoisePatch => seed_noise_patch O sim1 rng
    | .Scatter => seed_scatter O sim1 rng
    | .MultiPoint => seed_multi_point O sim1 rng
    | .Starburst => seed_starburst O sim1 rng
  ({ seeded.1 with paused := false }, seeded.2)

/-- `DlaSimulation::reset` (simulation.rs). -/
def reset (O : NumOracle) (sim : DlaSimulation) (rng : Rng) : DlaSimulation × Rng :=
  reset_with_seed O sim sim.seed_pattern rng

/-- `DlaSimulation::max_particles` (simulation.rs). -/
def max_particles (sim : DlaSimulation) : ℕ :=
  max (sim.grid_width * sim.grid_height * 3 / 4) 100

/-- `DlaSimulation::resize` (simulation.rs lines 738-749). -/
def resize (O : NumOracle) (sim : DlaSimulation) (newWidth newHeight : ℕ)
    (rng : Rng) : DlaSimulation × Rng :=
  if newWidth ≠ sim.grid_width ∨ newHeight ≠ sim.grid_height then
    let sim1 := { sim with grid_width := newWidth, grid_height := newHeight }
    let m := max_particles sim1
    let sim2 := if m < sim1.num_particles then { sim1 with num_particles := m } else sim1
    reset O sim2 rng
  else (sim, rng)

/-- A ratatui `Color` value as used by the renderer. -/
inductive ColorQ where
  | Rgb (r g b : ℕ)
  | White
deriving DecidableEq

/-- The precomputed color lookup table of braille.rs. -/
abbrev ColorLut := List ColorQ

/-- Modelled from the spec: `map_from_lut` and `ColorLut` live in src/color.rs,
which is not present under src/. Per the spec the LUT is "a precomputed color
lookup table (a discretized gradient keyed by `t ∈ [0,1]`)"; the model indexes
the discretized gradient by the normalized key. -/
def map_from_lut (lut : ColorLut) (t : ℚ) : ColorQ :=
  lut.getD (ratToUsize (t * ((lut.length : ℚ) - 1))) ColorQ.White

/-- `const BRAILLE_DOTS` (braille.rs). -/
def BRAILLE_DOTS : List (List ℕ) := [[1, 2, 4, 64], [8, 16, 32, 128]]

def brailleDot (dx dy : ℕ) : ℕ := (BRAILLE_DOTS.getD dx []).getD dy 0

/-- The 2x4 sub-positions of one glyph cell, in the `for dx in 0..2 { for dy in
0..4 }` iteration order of braille.rs. -/
def subPositionList : List (ℕ × ℕ) :=
  [(0, 0), (0, 1), (0, 2), (0, 3), (1, 0), (1, 1), (1, 2), (1, 3)]

/-- Accumulator of the per-glyph-cell sampling loop of `render_to_braille`. -/
structure SampleAcc where
  pattern : ℕ
  total : ℚ
  dots : ℕ
  recent : Bool
deriving DecidableEq

/-- The per-dot `value` computation of `render_to_braille` (braille.rs). -/
def particleValue (O : NumOracle) (mode : ColorMode) (invNum maxR : ℚ)
    (particle : ParticleData) : ℚ :=
  match mode with
  | .Age => (particle.age : ℚ) * invNum
  | .Distance => particle.distance / maxR
  | .Density => (particle.neighbor_count : ℚ) / 8
  | .Direction => (particle.direction + O.piQ) / O.tauQ

/-- One iteration of the 2x4 dot-sampling loop of `render_to_braille`:
nearest-neighbor sample the grid at sub-position `d` of glyph cell
`(cx, cy)` and accumulate pattern bit, color value, dot count and the
recently-stuck flag. -/
def sampleStep (O : NumOracle) (sim : DlaSimulation) (scaleX scaleY : ℚ)
    (mode : ColorMode) (hr pstuck : ℕ) (invNum maxR : ℚ) (cx cy : ℕ)
    (acc : SampleAcc) (d : ℕ × ℕ) : SampleAcc :=
  let bx : ℕ := cx * 2 + d.1
  let bY : ℕ := cy * 4 + d.2
  let sx := ratToUsize ((bx : ℚ) * scaleX)
  let sy := ratToUsize ((bY : ℚ) * scaleY)
  match get_particle sim sx sy with
  | some particle =>
      { pattern := acc.pattern ||| brailleDot d.1 d.2
        total := acc.total + particleValue O mode invNum maxR particle
        dots := acc.dots + 1
        recent := acc.recent || (decide (0 < hr) && decide (pstuck ≤ particle.age + hr)) }
  | none => acc

/-- The 2x4 dot-sampling loop for one glyph cell of `render_to_braille`. -/
def sampleCell (O : NumOracle) (sim : DlaSimulation) (scaleX scaleY : ℚ)
    (mode : ColorMode) (hr pstuck : ℕ) (invNum maxR : ℚ) (cx cy : ℕ) : SampleAcc :=
  subPositionList.foldl (sampleStep O sim scaleX scaleY mode hr pstuck invNum maxR cx cy)
    ⟨0, 0, 0, false⟩

/-- `struct BrailleCell` (braille.rs); the glyph is kept as its code point
`0x2800 + pattern`. -/
structure BrailleCell where
  x : ℕ
  y : ℕ
  glyph : ℕ
  color : ColorQ
deriving DecidableEq

/-- The body of the per-glyph-cell iteration of `render_to_braille`: sample the
cell's eight dots and emit a record only when the pattern is nonzero. -/
def renderCell (O : NumOracle) (sim : DlaSimulation) (lut : ColorLut)
    (colorByAge : Bool) (mode : ColorMode) (hr pstuck : ℕ)
    (invNum maxR scaleX scaleY : ℚ) (inv : Bool) (cx cy : ℕ) : Option BrailleCell :=
  let s := sampleCell O sim scaleX scaleY mode hr pstuck invNum maxR cx cy
  if s.pattern ≠ 0 then
    some
      { x := cx
        y := cy
        glyph := 0x2800 + s.pattern
        color :=
          if s.recent = true then ColorQ.Rgb 255 255 255
          else if colorByAge = true ∧ 0 < s.dots then
            let avg := s.total / (s.dots : ℚ)
            map_from_lut lut (if inv = true then 1 - avg else avg)
          else ColorQ.White }
  else none

/-- `render_to_braille` (braille.rs lines 36-133). -/
def render_to_braille (O : NumOracle) (sim : DlaSimulation)
    (canvasWidth canvasHeight : ℕ) (lut : ColorLut) (colorByAge : Bool)
    (mode : ColorMode) (hr : ℕ) (inv : Bool) : List BrailleCell :=
  let scaleX := (sim.grid_width : ℚ) / ((canvasWidth * 2 : ℕ) : ℚ)
  let scaleY := (sim.grid_height : ℚ) / ((canvasHeight * 4 : ℕ) : ℚ)
  let invNum : ℚ := 1 / ((max sim.num_particles 1 : ℕ) : ℚ)
  let maxR : ℚ := max sim.max_radius 1
  (List.range canvasHeight).flatMap (fun cy =>
    (List.range canvasWidth).flatMap (fun cx =>
      (renderCell O sim lut colorByAge mode hr sim.particles_stuck
        invNum maxR scaleX scaleY inv cx cy).toList))

/-- The dot pattern `render_to_braille` computes for glyph cell `(cx, cy)`
(derived with the same scale factors as the renderer). -/
def cellPattern (O : NumOracle) (sim : DlaSimulation)
    (canvasWidth canvasHeight : ℕ) (mode : ColorMode) (hr cx cy : ℕ) : ℕ :=
  let scaleX := (sim.grid_width : ℚ) / ((canvasWidth * 2 : ℕ) : ℚ)
  let scaleY := (sim.grid_height : ℚ) / ((canvasHeight * 4 : ℕ) : ℚ)
  let invNum : ℚ := 1 / ((max sim.num_particles 1 : ℕ) : ℚ)
  let maxR : ℚ := max sim.max_radius 1
  (sampleCell O sim scaleX scaleY mode hr sim.particles_stuck invNum maxR cx cy).pattern

/-- Row-major display order on rendered glyph cells. -/
def cellBefore (a b : BrailleCell) : Prop := a.y < b.y ∨ (a.y = b.y ∧ a.x < b.x)

/-- What one walk-loop invocation may do to the grid: either it did not stick
and left grid, particle count and max radius untouched, or it stuck exactly one
new particle at a previously empty, strictly interior cell. -/
def WalkOutcomeSpec (w h : ℕ) (g : Grid) (pstuck : ℕ) (maxr : ℚ)
    (r : WalkResult) : Prop :=
  (r.tag ≠ WalkExit.stuck ∧ r.grid = g ∧ r.pstuck = pstuck ∧ r.maxr = maxr) ∨
  (r.tag = WalkExit.stuck ∧ ∃ ix iy pd,
    0 < ix ∧ ix < w - 1 ∧ 0 < iy ∧ iy < h - 1 ∧
    g.getD (iy * w + ix) none = none ∧
    r.grid = g.set (iy * w + ix) (some pd) ∧
    r.pstuck = pstuck + 1)

/-! Concrete instances used to evaluate the model on specific inputs. -/

/-- An oracle whose transcendental functions all return `0`. -/
def zeroOracle : NumOracle := ⟨fun _ => 0, fun _ => 0, fun _ _ => 0, fun _ => 0, fun _ => 0, 0, 0⟩

/-- An oracle with `cos 0 = 1` and `sin 0 = 0` (the true values at angle `0`,
the only angle an exhausted draw stream produces). -/
def axisOracle : NumOracle := ⟨fun _ => 1, fun _ => 0, fun _ _ => 0, fun _ => 0, fun _ => 0, 0, 0⟩

/-- An exhausted draw stream: every draw yields `0`. -/
def emptyRng : Rng := ⟨[], []⟩

/-- An empty 16×16 simulation about to be seeded. -/
def simCross16 : DlaSimulation :=
  { grid_width := 16, grid_height := 16, grid := List.replicate 256 none
    num_particles := 5000, stickiness := 1, particles_stuck := 0, max_radius := 1
    paused := false, seed_pattern := .Point, settings := defaultSettings }

/-- An empty 64×64 simulation with `num_particles = 1`. -/
def simPoint64 : DlaSimulation :=
  { grid_width := 64, grid_height := 64, grid := List.replicate 4096 none
    num_particles := 1, stickiness := 1, particles_stuck := 0, max_radius := 1
    paused := false, seed_pattern := .Point, settings := defaultSettings }

/-- An 8×8 simulation whose grid is entirely occupied. -/
def simFull8 : DlaSimulation :=
  { grid_width := 8, grid_height := 8, grid := List.replicate 64 (some seed_particle)
    num_particles := 100, stickiness := 1, particles_stuck := 64, max_radius := 1
    paused := false, seed_pattern := .Point, settings := defaultSettings }

/-- A 128×4 simulation with an empty grid and `Wrap` boundary behavior: a
spawned walker can never stick (no neighbors exist) and walks past the escape
radius. -/
def simWrap128 : DlaSimulation :=
  { grid_width := 128, grid_height := 4, grid := List.replicate 512 none
    num_particles := 100, stickiness := 1, particles_stuck := 0, max_radius := 1
    paused := false, seed_pattern := .Point
    settings := { defaultSettings with boundary_behavior := .Wrap } }

/-- An 8×8 simulation with one seed at cell `(4, 3)`; a walker dropped at the
center `(4, 4)` has a von Neumann neighbor there and sticks immediately. -/
def simStick8 : DlaSimulation :=
  { grid_width := 8, grid_height := 8
    grid := (List.replicate 64 none).set 28 (some seed_particle)
    num_particles := 100, stickiness := 1, particles_stuck := 1, max_radius := 1
    paused := false, seed_pattern := .Point, settings := defaultSettings }

/-- A 10×10 simulation with one seed at cell `(5, 4)`; a walker dropped at the
center `(5, 5)` sticks immediately. -/
def simStick10 : DlaSimulation :=
  { grid_width := 10, grid_height := 10
    grid := (List.replicate 100 none).set 45 (some seed_particle)
    num_particles := 100, stickiness := 1, particles_stuck := 1, max_radius := 1
    paused := false, seed_pattern := .Point, settings := defaultSettings }

/-- An 8×8 simulation whose iteration budget is exhausted at once
(`max_walk_iterations = 0`), so `step` ends in a timeout discard. -/
def simTimeout8 : DlaSimulation :=
  { grid_width := 8, grid_height := 8, grid := List.replicate 64 none
    num_particles := 100, stickiness := 1, particles_stuck := 0, max_radius := 1
    paused := false, seed_pattern := .Point
    settings := { defaultSettings with max_walk_iterations := 0 } }

end Dla

/-! # Theorems -/

namespace Dla

set_option maxRecDepth 100000
set_option maxHeartbeats 1000000

/-- Claim C6: for every neighbor count not exceeding the active neighborhood's
maximum, every distance from center `≥ 0`, base stickiness in `[0.1, 1.0]`,
tip and side stickiness in `[0.1, 1.0]` and stickiness gradient in
`[-0.5, 0.5]`, `effective_stickiness` returns a value in `[0, 1]`. -/
theorem effective_stickiness_mem_unit_interval (st : SimulationSettings)
    (n : ℕ) (d b : ℚ)
    (hn : n ≤ maxNeighbors st.neighborhood) (hd : 0 ≤ d)
    (hb : 1 / 10 ≤ b ∧ b ≤ 1)
    (htip : 1 / 10 ≤ st.tip_stickiness ∧ st.tip_stickiness ≤ 1)
    (hside : 1 / 10 ≤ st.side_stickiness ∧ st.side_stickiness ≤ 1)
    (hgrad : -(1 / 2) ≤ st.stickiness_gradient ∧ st.stickiness_gradient ≤ 1 / 2) :
    0 ≤ st.effective_stickiness n d b ∧ st.effective_stickiness n d b ≤ 1 := by
  unfold SimulationSettings.effective_stickiness effStick clampQ
  exact ⟨le_min (le_max_right _ _) zero_le_one, min_le_right _ _⟩

/-- Witness for C6 at the default settings, one neighbor, distance 0, base 1. -/
theorem effective_stickiness_mem_unit_interval_witness :
    0 ≤ defaultSettings.effective_stickiness 1 0 1 ∧
      defaultSettings.effective_stickiness 1 0 1 ≤ 1 :=
  effective_stickiness_mem_unit_interval defaultSettings 1 0 1
    (by norm_num [defaultSettings, maxNeighbors]) (le_refl 0)
    ⟨by norm_num, le_refl 1⟩
    ⟨by norm_num [defaultSettings], by norm_num [defaultSettings]⟩
    ⟨by norm_num [defaultSettings], by norm_num [defaultSettings]⟩
    ⟨by norm_num [defaultSettings], by norm_num [defaultSettings]⟩

/-- Claim C1 (code bug at the Cross pattern): immediately after
`reset_with_seed(Cross)` on an empty 16×16 grid, `particles_stuck` is `8`
while only `5` cells are Occupied: `seed_cross` increments its counter by 4
at arm index 0 although all four writes hit the same center cell. -/
theorem seed_cross_breaks_count_invariant :
    (reset_with_seed zeroOracle simCross16 .Cross emptyRng).1.particles_stuck = 8 ∧
    countOccupied (reset_with_seed zeroOracle simCross16 .Cross emptyRng).1.grid = 5 :=
  ⟨rfl, rfl⟩

/-- Claim C7: after `reset_with_seed(Point)` on a 64×64 grid with
`num_particles = 1`, `particles_stuck = 1`, `max_radius = 1.0`,
`progress() = 1.0` and `is_complete()` holds. -/
theorem point_seed_completion_scenario :
    (reset_with_seed zeroOracle simPoint64 .Point emptyRng).1.particles_stuck = 1 ∧
    (reset_with_seed zeroOracle simPoint64 .Point emptyRng).1.max_radius = 1 ∧
    progress (reset_with_seed zeroOracle simPoint64 .Point emptyRng).1 = 1 ∧
    is_complete (reset_with_seed zeroOracle simPoint64 .Point emptyRng).1 = true :=
  ⟨rfl, rfl, by with_unfolding_all rfl, rfl⟩

/-- Counterexample to claim C4 as stated: `resize` with unchanged dimensions
does not clear the grid; on a fully occupied 8×8 grid, `resize(8, 8)` leaves
all 64 occupied cells in place. -/
theorem resize_same_dims_not_cleared :
    (resize zeroOracle simFull8 8 8 emptyRng).1.grid = simFull8.grid ∧
    countOccupied (resize zeroOracle simFull8 8 8 emptyRng).1.grid = 64 :=
  ⟨rfl, rfl⟩

/-- Claim C4 (amended): `resize(w, h)` re-seeds via `reset` when the dimensions
differ from the current ones (after capping `num_particles` to the new grid's
maximum), and is a no-op — the grid is left untouched, not cleared — when the
dimensions are unchanged. -/
theorem resize_characterization (O : NumOracle) (sim : DlaSimulation)
    (w h : ℕ) (rng : Rng) :
    resize O sim w h rng =
      if w = sim.grid_width ∧ h = sim.grid_height then (sim, rng)
      else
        reset O
          (let sim1 : DlaSimulation := { sim with grid_width := w, grid_height := h }
           if max_particles sim1 < sim1.num_particles then
             { sim1 with num_particles := max_particles sim1 }
           else sim1) rng := by
  rcases Decidable.em (w = sim.grid_width) with hw | hw
  · rcases Decidable.em (h = sim.grid_height) with hh | hh
    · simp [resize, hw, hh]
    · simp [resize, hw, hh]
  · simp [resize, hw]

/-- Every invocation of the walk loop satisfies `WalkOutcomeSpec`: it either
leaves the grid untouched (escape, edge absorption, timeout, or any non-stick
exit) or commits exactly one particle to an empty interior cell. -/
theorem walkLoop_cases (O : NumOracle) (p : WalkParams) (w h : ℕ) (g : Grid)
    (pstuck : ℕ) (maxr stick cx cy escSq xmax ymax : ℚ) :
    ∀ (fuel : ℕ) (x y ldx ldy : ℚ) (rng : Rng),
      WalkOutcomeSpec w h g pstuck maxr
        (walkLoop O p w h g pstuck maxr stick cx cy escSq xmax ymax fuel x y ldx ldy rng) := by
  intro fuel
  induction fuel with
  | zero =>
    intro x y ldx ldy rng
    exact Or.inl ⟨by simp [walkLoop], rfl, rfl, rfl⟩
  | succ n ih =>
    intro x y ldx ldy rng
    simp only [walkLoop]
    split
    · exact Or.inl ⟨by simp, rfl, rfl, rfl⟩
    · split
      next hInt =>
        split
        next hNb =>
          split
          next hU =>
            split
            next hEmpty =>
              exact Or.inr ⟨rfl, ratToUsize x, ratToUsize y, _,
                hInt.1, hInt.2.1, hInt.2.2.1, hInt.2.2.2,
                Option.isNone_iff_eq_none.mp hEmpty, rfl, rfl⟩
            next hEmpty =>
              split
              · exact Or.inl ⟨by simp, rfl, rfl, rfl⟩
              · exact ih _ _ _ _ _
          next hU =>
            split
            · exact Or.inl ⟨by simp, rfl, rfl, rfl⟩
            · exact ih _ _ _ _ _
        next hNb =>
          split
          · exact Or.inl ⟨by simp, rfl, rfl, rfl⟩
          · exact ih _ _ _ _ _
      next hInt =>
        split
        · exact Or.inl ⟨by simp, rfl, rfl, rfl⟩
        · exact ih _ _ _ _ _

/-- The non-idle path of `step` satisfies `WalkOutcomeSpec`. -/
theorem stepGo_cases (O : NumOracle) (sim : DlaSimulation) (rng : Rng) :
    WalkOutcomeSpec sim.grid_width sim.grid_height sim.grid sim.particles_stuck
      sim.max_radius (stepGo O sim rng) := by
  unfold stepGo
  exact walkLoop_cases _ _ _ _ _ _ _ _ _ _ _ _ _ _ _ _ _ _ _

/-- A stick commit's flat index lies inside a `w * h` buffer. -/
theorem stuck_index_lt {w h ix iy : ℕ} (hix0 : 0 < ix) (hix : ix < w - 1)
    (hiy : iy < h - 1) : iy * w + ix < w * h := by
  have h1 : iy * w + ix < (iy + 1) * w := by
    rw [Nat.succ_mul]; omega
  have h2 : (iy + 1) * w ≤ h * w := Nat.mul_le_mul_right w (by omega)
  calc iy * w + ix < (iy + 1) * w := h1
    _ ≤ h * w := h2
    _ = w * h := Nat.mul_comm h w

/-- Setting a previously empty in-bounds cell to `some` raises the occupied
count by exactly one. -/
theorem countOccupied_set_some (g : Grid) (idx : ℕ) (pd : ParticleData)
    (hidx : idx < g.length) (hempty : g.getD idx none = none) :
    countOccupied (g.set idx (some pd)) = countOccupied g + 1 := by
  induction g generalizing idx with
  | nil => simp at hidx
  | cons hd tl ih =>
    cases idx with
    | zero =>
      have hhd : hd = none := by simpa [List.getD] using hempty
      subst hhd
      simp [countOccupied, List.countP_cons]
    | succ m =>
      have h1 : m < tl.length := by simpa using hidx
      have h2 : tl.getD m none = none := by simpa [List.getD] using hempty
      simp only [List.set_cons_succ, countOccupied, List.countP_cons]
      have := ih m h1 h2
      unfold countOccupied at this
      omega

/-- Claim C2: each call to `step` either leaves the grid (hence its occupied
cells) unchanged with `particles_stuck` unchanged, or occupies exactly one new
cell with `particles_stuck` incremented by exactly one; it never decrements. -/
theorem step_adds_zero_or_one_particle (O : NumOracle) (sim : DlaSimulation)
    (rng : Rng) (hlen : sim.grid.length = sim.grid_width * sim.grid_height) :
    ((stepCore O sim rng).sim.grid = sim.grid ∧
      (stepCore O sim rng).sim.particles_stuck = sim.particles_stuck) ∨
    (countOccupied (stepCore O sim rng).sim.grid = countOccupied sim.grid + 1 ∧
      (stepCore O sim rng).sim.particles_stuck = sim.particles_stuck + 1) := by
  unfold stepCore
  split
  · exact Or.inl ⟨rfl, rfl⟩
  · rcases stepGo_cases O sim rng with ⟨_, hg, hp, _⟩ |
      ⟨_, ix, iy, pd, hix0, hix, hiy0, hiy, hempty, hg, hp⟩
    · exact Or.inl ⟨hg, hp⟩
    · refine Or.inr ⟨?_, hp⟩
      show countOccupied (stepGo O sim rng).grid = countOccupied sim.grid + 1
      rw [hg]
      exact countOccupied_set_some _ _ _ (by rw [hlen]; exact stuck_index_lt hix0 hix hiy)
        hempty

/-- Witness for C2: a concrete 8×8 simulation where the walker sticks; the
grid's length matches its dimensions and the step commits one particle. -/
theorem step_adds_zero_or_one_particle_witness :
    simStick8.grid.length = simStick8.grid_width * simStick8.grid_height ∧
    (((stepCore zeroOracle simStick8 emptyRng).sim.grid = simStick8.grid ∧
        (stepCore zeroOracle simStick8 emptyRng).sim.particles_stuck =
          simStick8.particles_stuck) ∨
      (countOccupied (stepCore zeroOracle simStick8 emptyRng).sim.grid =
          countOccupied simStick8.grid + 1 ∧
        (stepCore zeroOracle simStick8 emptyRng).sim.particles_stuck =
          simStick8.particles_stuck + 1)) :=
  ⟨rfl, step_adds_zero_or_one_particle zeroOracle simStick8 emptyRng rfl⟩

/-- Claim C3: when `step` returns because the walker escaped or because the
iteration budget ran out, the grid is identical to its state before the call. -/
theorem step_escape_or_timeout_leaves_grid (O : NumOracle) (sim : DlaSimulation)
    (rng : Rng)
    (htag : (stepCore O sim rng).exitTag = some WalkExit.escaped ∨
      (stepCore O sim rng).exitTag = some WalkExit.timeout) :
    (stepCore O sim rng).sim.grid = sim.grid := by
  unfold stepCore at htag ⊢
  revert htag
  split
  · intro _; rfl
  · intro htag
    rcases stepGo_cases O sim rng with ⟨_, hg, _, _⟩ | ⟨hstuck, _⟩
    · exact hg
    · exfalso
      rcases htag with h | h
      · have h2 : (stepGo O sim rng).tag = WalkExit.escaped := Option.some.inj h
        rw [hstuck] at h2
        exact absurd h2 (by decide)
      · have h2 : (stepGo O sim rng).tag = WalkExit.timeout := Option.some.inj h
        rw [hstuck] at h2
        exact absurd h2 (by decide)

/-- Witness for C3: with a zero iteration budget the walk times out at once and
the grid is unchanged. -/
theorem step_escape_or_timeout_leaves_grid_witness :
    ((stepCore zeroOracle simTimeout8 emptyRng).exitTag = some WalkExit.escaped ∨
      (stepCore zeroOracle simTimeout8 emptyRng).exitTag = some WalkExit.timeout) ∧
    (stepCore zeroOracle simTimeout8 emptyRng).sim.grid = simTimeout8.grid :=
  ⟨Or.inr (by with_unfolding_all rfl),
    step_escape_or_timeout_leaves_grid zeroOracle simTimeout8 emptyRng
      (Or.inr (by with_unfolding_all rfl))⟩

/-- A flat index `y * w + x` with both column offsets below `w` determines its
coordinates uniquely. -/
theorem grid_index_unique {w x ix y iy : ℕ} (hx : x < w) (hix : ix < w)
    (e : y * w + x = iy * w + ix) : x = ix ∧ y = iy := by
  have h0 : 0 < w := by omega
  have hmx : (y * w + x) % w = x := by
    rw [Nat.mul_comm y w, Nat.mul_add_mod]; exact Nat.mod_eq_of_lt hx
  have hmix : (iy * w + ix) % w = ix := by
    rw [Nat.mul_comm iy w, Nat.mul_add_mod]; exact Nat.mod_eq_of_lt hix
  have hxi : x = ix := by rw [← hmx, e, hmix]
  subst hxi
  refine ⟨rfl, ?_⟩
  exact Nat.eq_of_mul_eq_mul_right h0 (by omega)

/-- Claim C10: any cell whose occupancy `step` changes is strictly interior:
`1 ≤ x ≤ width - 2`, `1 ≤ y ≤ height - 2`; `step` never occupies a border
cell, so over any sequence of steps after a reset only interior cells are
committed by the walk engine. -/
theorem step_commits_only_interior_cells (O : NumOracle) (sim : DlaSimulation)
    (rng : Rng) (x y : ℕ)
    (hdiff : get_particle (stepCore O sim rng).sim x y ≠ get_particle sim x y) :
    1 ≤ x ∧ x ≤ sim.grid_width - 2 ∧ 1 ≤ y ∧ y ≤ sim.grid_height - 2 := by
  unfold stepCore at hdiff
  revert hdiff
  split
  · intro hdiff; exact absurd rfl hdiff
  · intro hdiff
    unfold get_particle at hdiff
    dsimp only at hdiff
    rcases stepGo_cases O sim rng with ⟨_, hg, _, _⟩ |
      ⟨_, ix, iy, pd, hix0, hix, hiy0, hiy, hempty, hg, _⟩
    · exact absurd (by rw [hg]) hdiff
    · rw [hg] at hdiff
      by_cases hin : x < sim.grid_width ∧ y < sim.grid_height
      · rw [if_pos hin, if_pos hin] at hdiff
        have he : y * sim.grid_width + x = iy * sim.grid_width + ix := by
          by_contra hne
          apply hdiff
          rw [List.getD_eq_getElem?_getD, List.getD_eq_getElem?_getD,
            List.getElem?_set_ne (Ne.symm hne)]
        have hxy := grid_index_unique hin.1 (show ix < sim.grid_width by omega) he
        omega
      · rw [if_neg hin, if_neg hin] at hdiff
        exact absurd rfl hdiff

/-- Claim C9: `step` never reads `lattice_walk`, `adaptive_step` or
`adaptive_step_factor`: with the same draw stream and oracle, two settings that
differ only in those three fields produce the same grid, the same
`particles_stuck`, the same `max_radius` and the same return value. -/
theorem step_reads_no_adaptive_or_lattice_fields (O : NumOracle)
    (sim : DlaSimulation) (rng : Rng) (a l : Bool) (f : ℚ) :
    let sim2 : DlaSimulation := { sim with settings :=
      { sim.settings with adaptive_step := a, adaptive_step_factor := f, lattice_walk := l } }
    (stepCore O sim2 rng).sim.grid = (stepCore O sim rng).sim.grid ∧
    (stepCore O sim2 rng).sim.particles_stuck = (stepCore O sim rng).sim.particles_stuck ∧
    (stepCore O sim2 rng).sim.max_radius = (stepCore O sim rng).sim.max_radius ∧
    (stepCore O sim2 rng).cont = (stepCore O sim rng).cont := by
  intro sim2
  unfold stepCore
  split
  next => exact ⟨rfl, rfl, rfl, rfl⟩
  next => exact ⟨rfl, rfl, rfl, rfl⟩

/-- Claim C5 (amended): under `Wrap`, a post-move position with `x` below the
boundary margin is translated by the interior width (`x + (x_max - margin)`),
and the `Absorb` respawn discard never fires while `Wrap` is active — but a
walker can still be discarded by escape or timeout, so the walk-loop exit is
merely never `absorbed`. -/
theorem wrap_adds_interior_width_and_never_absorbs :
    (∀ x y xmax ymax : ℚ, x < BOUNDARY_MARGIN →
      (apply_boundary BoundaryBehavior.Wrap x y xmax ymax).1 =
        x + (xmax - BOUNDARY_MARGIN)) ∧
    (∀ (O : NumOracle) (p : WalkParams),
      p.boundary_behavior = BoundaryBehavior.Wrap →
      ∀ (w h : ℕ) (g : Grid) (pstuck : ℕ) (maxr stick cx cy escSq xmax ymax : ℚ)
        (fuel : ℕ) (x y ldx ldy : ℚ) (rng : Rng),
        (walkLoop O p w h g pstuck maxr stick cx cy escSq xmax ymax fuel
          x y ldx ldy rng).tag ≠ WalkExit.absorbed) := by
  constructor
  · intro x y xmax ymax hx
    unfold apply_boundary
    dsimp only
    rw [if_pos hx]
  · intro O p hWrap w h g pstuck maxr stick cx cy escSq xmax ymax fuel
    induction fuel with
    | zero =>
      intro x y ldx ldy rng
      simp [walkLoop]
    | succ n ih =>
      intro x y ldx ldy rng
      simp only [walkLoop]
      split
      · simp
      · split
        next =>
          split
          next =>
            split
            next =>
              split
              next => simp
              next =>
                rw [hWrap, if_neg (by simp)]
                exact ih _ _ _ _ _
            next =>
              rw [hWrap, if_neg (by simp)]
              exact ih _ _ _ _ _
          next =>
            rw [hWrap, if_neg (by simp)]
            exact ih _ _ _ _ _
        next =>
          rw [hWrap, if_neg (by simp)]
          exact ih _ _ _ _ _

/-- Witness for C5's amended claim: the wrap transform at `x = 0` with
`x_max = 6` yields `x + 5`, and a concrete `Wrap` walk never exits absorbed. -/
theorem wrap_adds_interior_width_and_never_absorbs_witness :
    (apply_boundary BoundaryBehavior.Wrap 0 3 6 6).1 = 0 + (6 - BOUNDARY_MARGIN) ∧
    (walkLoop zeroOracle (mkWalkParams { defaultSettings with boundary_behavior := .Wrap })
        8 8 [] 0 1 1 4 4 100 6 6 0 4 4 0 0 emptyRng).tag ≠ WalkExit.absorbed :=
  ⟨wrap_adds_interior_width_and_never_absorbs.1 0 3 6 6
      (by norm_num [BOUNDARY_MARGIN]),
    wrap_adds_interior_width_and_never_absorbs.2 zeroOracle _ rfl
      8 8 [] 0 1 1 4 4 100 6 6 0 4 4 0 0 emptyRng⟩

/-- Counterexample to claim C5 as stated: while `Wrap` is active a walker can
still be discarded. In this realizable run (all draws 0, the true cosine and
sine at angle 0) on an empty 128×4 grid the walker drifts right, exceeds the
escape distance and is abandoned: the walk exits `escaped` and the grid and
`particles_stuck` are unchanged. -/
theorem wrap_discards_by_escape :
    simWrap128.settings.boundary_behavior = BoundaryBehavior.Wrap ∧
    (stepCore axisOracle simWrap128 emptyRng).exitTag = some WalkExit.escaped ∧
    (stepCore axisOracle simWrap128 emptyRng).sim.grid = simWrap128.grid ∧
    (stepCore axisOracle simWrap128 emptyRng).sim.particles_stuck =
      simWrap128.particles_stuck :=
  ⟨rfl, by with_unfolding_all rfl, by with_unfolding_all rfl,
    by with_unfolding_all rfl⟩

/-- Witness for C10: at the concrete sticking scenario, the changed cell is
`(5, 5)`, which is interior on the 10×10 grid. -/
theorem step_commits_only_interior_cells_witness :
    get_particle (stepCore zeroOracle simStick10 emptyRng).sim 5 5 ≠
      get_particle simStick10 5 5 ∧
    (1 ≤ 5 ∧ 5 ≤ simStick10.grid_width - 2 ∧ 1 ≤ 5 ∧
      5 ≤ simStick10.grid_height - 2) := by
  have h1 : get_particle (stepCore zeroOracle simStick10 emptyRng).sim 5 5 =
      some ⟨1, 0, 0, 1⟩ := by with_unfolding_all rfl
  have h2 : get_particle simStick10 5 5 = none := by with_unfolding_all rfl
  have hne : get_particle (stepCore zeroOracle simStick10 emptyRng).sim 5 5 ≠
      get_particle simStick10 5 5 := by
    rw [h1, h2]; exact Option.some_ne_none _
  exact ⟨hne, step_commits_only_interior_cells zeroOracle simStick10 emptyRng 5 5 hne⟩

/-- One sampling iteration either keeps the pattern or ors in one dot bit. -/
theorem sampleStep_pattern (O : NumOracle) (sim : DlaSimulation) (scaleX scaleY : ℚ)
    (mode : ColorMode) (hr pstuck : ℕ) (invNum maxR : ℚ) (cx cy : ℕ)
    (acc : SampleAcc) (d : ℕ × ℕ) :
    (sampleStep O sim scaleX scaleY mode hr pstuck invNum maxR cx cy acc d).pattern =
        acc.pattern ∨
      (sampleStep O sim scaleX scaleY mode hr pstuck invNum maxR cx cy acc d).pattern =
        acc.pattern ||| brailleDot d.1 d.2 := by
  simp only [sampleStep]
  split <;> simp

/-- The sampled dot pattern of a glyph cell is an 8-bit value. -/
theorem sampleCell_pattern_lt (O : NumOracle) (sim : DlaSimulation)
    (scaleX scaleY : ℚ) (mode : ColorMode) (hr pstuck : ℕ) (invNum maxR : ℚ)
    (cx cy : ℕ) :
    (sampleCell O sim scaleX scaleY mode hr pstuck invNum maxR cx cy).pattern < 256 := by
  unfold sampleCell
  have key : ∀ (l : List (ℕ × ℕ)) (acc : SampleAcc),
      (∀ d ∈ l, brailleDot d.1 d.2 < 256) → acc.pattern < 256 →
      ((l.foldl (sampleStep O sim scaleX scaleY mode hr pstuck invNum maxR cx cy)
        acc).pattern < 256) := by
    intro l
    induction l with
    | nil => intro acc _ hacc; simpa using hacc
    | cons d t ih =>
      intro acc hdot hacc
      rw [List.foldl_cons]
      apply ih _ (fun e he => hdot e (List.mem_cons_of_mem _ he))
      rcases sampleStep_pattern O sim scaleX scaleY mode hr pstuck invNum maxR cx cy acc d
        with h | h
      · rw [h]; exact hacc
      · rw [h]
        have h256 : (256 : ℕ) = 2 ^ 8 := by norm_num
        rw [h256] at hacc ⊢
        exact Nat.or_lt_two_pow hacc (by rw [← h256]; exact hdot d (List.mem_cons_self _ _))
  exact key subPositionList ⟨0, 0, 0, false⟩ (by decide) (by norm_num)

/-- A record emitted for glyph cell `(cx, cy)` carries exactly those
coordinates, stores `0x2800 + pattern` as its glyph, and exists only when the
pattern is nonzero. -/
theorem renderCell_coords {O : NumOracle} {sim : DlaSimulation} {lut : ColorLut}
    {cba : Bool} {mode : ColorMode} {hr pstuck : ℕ} {invNum maxR scaleX scaleY : ℚ}
    {inv : Bool} {cx cy : ℕ} {c : BrailleCell}
    (h : renderCell O sim lut cba mode hr pstuck invNum maxR scaleX scaleY inv cx cy =
      some c) :
    c.x = cx ∧ c.y = cy ∧
    c.glyph = 0x2800 + (sampleCell O sim scaleX scaleY mode hr pstuck invNum maxR
      cx cy).pattern ∧
    (sampleCell O sim scaleX scaleY mode hr pstuck invNum maxR cx cy).pattern ≠ 0 := by
  simp only [renderCell] at h
  revert h
  split
  next hp =>
    intro h
    cases Option.some.inj h
    exact ⟨rfl, rfl, rfl, hp⟩
  next =>
    intro h
    exact absurd h (by simp)

/-- A record is emitted for a glyph cell exactly when its pattern is nonzero. -/
theorem renderCell_isSome_iff (O : NumOracle) (sim : DlaSimulation) (lut : ColorLut)
    (cba : Bool) (mode : ColorMode) (hr pstuck : ℕ) (invNum maxR scaleX scaleY : ℚ)
    (inv : Bool) (cx cy : ℕ) :
    (renderCell O sim lut cba mode hr pstuck invNum maxR scaleX scaleY inv
        cx cy).isSome = true ↔
      (sampleCell O sim scaleX scaleY mode hr pstuck invNum maxR cx cy).pattern ≠ 0 := by
  simp only [renderCell]
  split <;> simp_all

/-- Every element of the doubly nested render enumeration satisfies a predicate
established for every emitted record. -/
theorem grid_flatMap_all (f : ℕ → ℕ → Option BrailleCell) (P : BrailleCell → Bool)
    (hP : ∀ cx cy c, f cx cy = some c → P c = true) (cw ch : ℕ) :
    ((List.range ch).flatMap (fun cy =>
      (List.range cw).flatMap (fun cx => (f cx cy).toList))).all P = true := by
  rw [List.all_eq_true]
  intro c hc
  rw [List.mem_flatMap] at hc
  obtain ⟨cy, _, hc⟩ := hc
  rw [List.mem_flatMap] at hc
  obtain ⟨cx, _, hc⟩ := hc
  cases hf : f cx cy with
  | none => rw [hf] at hc; simp at hc
  | some c2 =>
    rw [hf] at hc
    simp only [Option.toList_some, List.mem_singleton] at hc
    subst hc
    exact hP cx cy c hf

/-- The doubly nested render enumeration is strictly ordered row-major,
provided every emitted record carries its cell's coordinates. -/
theorem grid_flatMap_pairwise (f : ℕ → ℕ → Option BrailleCell)
    (hcoord : ∀ cx cy c, f cx cy = some c → c.x = cx ∧ c.y = cy) (cw ch : ℕ) :
    List.Pairwise cellBefore ((List.range ch).flatMap (fun cy =>
      (List.range cw).flatMap (fun cx => (f cx cy).toList))) := by
  have hmemCell : ∀ cx cy c, c ∈ (f cx cy).toList → c.x = cx ∧ c.y = cy := by
    intro cx cy c hc
    cases hf : f cx cy with
    | none => rw [hf] at hc; simp at hc
    | some c2 =>
      rw [hf] at hc
      simp only [Option.toList_some, List.mem_singleton] at hc
      subst hc
      exact hcoord cx cy c hf
  have hmemRow : ∀ cy c, c ∈ (List.range cw).flatMap (fun cx => (f cx cy).toList) →
      c.y = cy := by
    intro cy c hc
    rw [List.mem_flatMap] at hc
    obtain ⟨cx, _, hc⟩ := hc
    exact (hmemCell cx cy c hc).2
  rw [List.pairwise_flatMap]
  constructor
  · intro cy _
    rw [List.pairwise_flatMap]
    constructor
    · intro cx _
      cases hf : f cx cy <;> simp
    · apply List.Pairwise.imp ?_ (List.pairwise_lt_range cw)
      intro cx1 cx2 hlt a ha b hb
      have h1 := hmemCell cx1 cy a ha
      have h2 := hmemCell cx2 cy b hb
      exact Or.inr ⟨by rw [h1.2, h2.2], by rw [h1.1, h2.1]; exact hlt⟩
  · apply List.Pairwise.imp ?_ (List.pairwise_lt_range ch)
    intro cy1 cy2 hlt a ha b hb
    exact Or.inl (by rw [hmemRow cy1 a ha, hmemRow cy2 b hb]; exact hlt)

/-- Counting over a flatMap is the sum of the per-element counts. -/
theorem countP_flatMap_eq {α β : Type} (l : List α) (f : α → List β) (p : β → Bool) :
    (l.flatMap f).countP p = (l.map (fun a => (f a).countP p)).sum := by
  induction l with
  | nil => simp
  | cons a t ih => simp [List.flatMap_cons, List.countP_append, ih]

theorem sum_map_range_zero (n : ℕ) (g : ℕ → ℕ) (hz : ∀ x, x < n → g x = 0) :
    ((List.range n).map g).sum = 0 := by
  apply List.sum_eq_zero
  intro z hz2
  rw [List.mem_map] at hz2
  obtain ⟨i, hi, rfl⟩ := hz2
  exact hz i (List.mem_range.mp hi)

theorem sum_map_range_single (n x0 : ℕ) (g : ℕ → ℕ) (hx : x0 < n)
    (hz : ∀ x, x ≠ x0 → g x = 0) : ((List.range n).map g).sum = g x0 := by
  induction n with
  | zero => omega
  | succ m ih =>
    rw [List.range_succ, List.map_append, List.sum_append]
    rcases Nat.lt_or_ge x0 m with h | h
    · rw [ih h]
      simp [hz m (by omega)]
    · have hx0 : x0 = m := by omega
      subst hx0
      have hzero : ((List.range x0).map g).sum = 0 :=
        sum_map_range_zero x0 g (fun x hxlt => hz x (by omega))
      simp [hzero]

/-- The render enumeration holds exactly one record for glyph cell
`(cx0, cy0)` when that cell is in canvas range and emitted, and none
otherwise. -/
theorem grid_flatMap_countP (f : ℕ → ℕ → Option BrailleCell)
    (hcoord : ∀ cx cy c, f cx cy = some c → c.x = cx ∧ c.y = cy)
    (cw ch cx0 cy0 : ℕ) :
    ((List.range ch).flatMap (fun cy =>
        (List.range cw).flatMap (fun cx => (f cx cy).toList))).countP
      (fun c => decide (c.x = cx0) && decide (c.y = cy0)) =
    if cx0 < cw ∧ cy0 < ch ∧ (f cx0 cy0).isSome = true then 1 else 0 := by
  have hcell : ∀ cx cy, ((f cx cy).toList).countP
      (fun c => decide (c.x = cx0) && decide (c.y = cy0)) =
      if cx = cx0 ∧ cy = cy0 ∧ (f cx cy).isSome = true then 1 else 0 := by
    intro cx cy
    cases hf : f cx cy with
    | none => simp
    | some c =>
      obtain ⟨hcx, hcy⟩ := hcoord cx cy c hf
      subst hcx
      subst hcy
      by_cases h1 : c.x = cx0 <;> by_cases h2 : c.y = cy0 <;>
        simp [List.countP_cons, h1, h2]
  rw [countP_flatMap_eq]
  have hrow : ∀ cy, ((List.range cw).flatMap (fun cx => (f cx cy).toList)).countP
      (fun c => decide (c.x = cx0) && decide (c.y = cy0)) =
      if cy = cy0 ∧ cx0 < cw ∧ (f cx0 cy).isSome = true then 1 else 0 := by
    intro cy
    rw [countP_flatMap_eq]
    by_cases hcw : cx0 < cw
    · have hsingle := sum_map_range_single cw cx0
        (fun cx => ((f cx cy).toList).countP
          (fun c => decide (c.x = cx0) && decide (c.y = cy0))) hcw
        (by intro x hxne; simp only [hcell]; simp [hxne])
      rw [hsingle]
      simp only [hcell]
      by_cases hy : cy = cy0 <;>
        by_cases hS : (f cx0 cy).isSome = true <;> simp [hy, hS, hcw]
    · have hzero := sum_map_range_zero cw
        (fun cx => ((f cx cy).toList).countP
          (fun c => decide (c.x = cx0) && decide (c.y = cy0)))
        (by intro x hxlt; simp only [hcell]; simp; intro h1 _; omega)
      rw [hzero]
      simp [hcw]
  by_cases hch : cy0 < ch
  · have hsingle := sum_map_range_single ch cy0
      (fun cy => ((List.range cw).flatMap (fun cx => (f cx cy).toList)).countP
        (fun c => decide (c.x = cx0) && decide (c.y = cy0))) hch
      (by intro ycy hne; simp only [hrow]; simp [hne])
    rw [hsingle]
    simp only [hrow]
    by_cases h1 : cx0 < cw <;>
      by_cases h2 : (f cx0 cy0).isSome = true <;> simp [hch, h1, h2]
  · have hzero := sum_map_range_zero ch
      (fun cy => ((List.range cw).flatMap (fun cx => (f cx cy).toList)).countP
        (fun c => decide (c.x = cx0) && decide (c.y = cy0)))
      (by intro ycy hylt; simp only [hrow]; simp; intro h1 _; omega)
    rw [hzero]
    simp [hch]

/-- Claim C8: `render_to_braille` emits only glyph cells whose 8-bit dot
pattern is nonzero — every emitted glyph lies in `[0x2801, 0x28FF]`, i.e. its
pattern byte is in `[1, 255]` — in strict row-major order, with exactly one
record per in-range glyph cell of nonzero pattern and none for pattern 0.
(The embedding is a pure function of the simulation, so the render performs no
mutation by construction.) -/
theorem render_to_braille_pattern_order_count (O : NumOracle) (sim : DlaSimulation)
    (cw ch : ℕ) (lut : ColorLut) (cba : Bool) (mode : ColorMode) (hr : ℕ)
    (inv : Bool) :
    ((render_to_braille O sim cw ch lut cba mode hr inv).all
        (fun c => decide (0x2800 + 1 ≤ c.glyph) && decide (c.glyph ≤ 0x2800 + 255)) =
      true) ∧
    List.Pairwise cellBefore (render_to_braille O sim cw ch lut cba mode hr inv) ∧
    (∀ cx cy : ℕ,
      (render_to_braille O sim cw ch lut cba mode hr inv).countP
          (fun c => decide (c.x = cx) && decide (c.y = cy)) =
        if cx < cw ∧ cy < ch ∧ cellPattern O sim cw ch mode hr cx cy ≠ 0 then 1
        else 0) := by
  simp only [render_to_braille, cellPattern]
  refine ⟨?_, ?_, ?_⟩
  · apply grid_flatMap_all
    intro cx cy c hf
    obtain ⟨_, _, hglyph, hne⟩ := renderCell_coords hf
    have hlt := sampleCell_pattern_lt O sim
      ((sim.grid_width : ℚ) / ((cw * 2 : ℕ) : ℚ))
      ((sim.grid_height : ℚ) / ((ch * 4 : ℕ) : ℚ)) mode hr sim.particles_stuck
      (1 / ((max sim.num_particles 1 : ℕ) : ℚ)) (max sim.max_radius 1) cx cy
    simp only [Bool.and_eq_true, decide_eq_true_eq]
    rw [hglyph]
    omega
  · apply grid_flatMap_pairwise
    intro cx cy c hf
    exact ⟨(renderCell_coords hf).1, (renderCell_coords hf).2.1⟩
  · intro cx cy
    rw [grid_flatMap_countP _ (fun cx cy c hf =>
      ⟨(renderCell_coords hf).1, (renderCell_coords hf).2.1⟩) cw ch cx cy]
    refine if_congr ?_ rfl rfl
    constructor
    · rintro ⟨h1, h2, h3⟩
      exact ⟨h1, h2, (renderCell_isSome_iff _ _ _ _ _ _ _ _ _ _ _ _ _ _).mp h3⟩
    · rintro ⟨h1, h2, h3⟩
      exact ⟨h1, h2, (renderCell_isSome_iff _ _ _ _ _ _ _ _ _ _ _ _ _ _).mpr h3⟩

end Dla
